import Mathlib

/-!
Shallow embedding of `src/GainVoltage.C`: the per-channel gain-versus-voltage
fitting pipeline of the ICARUS PMT calibration macro.  Machine doubles are
modelled as exact numbers: parsed input values as rationals, log-space values
as reals.  The Minuit regression behind `TGraph::Fit("fit","ME")` is an
external solver and enters the model as an abstract deterministic function
from (starting parameters, data) to a fit outcome.
-/

namespace GainVoltage

/-- Constant `const int NPMT = 10;` (line 27) — the fixed channel count. -/
def NPMT : ℕ := 10

/-- Constant `const int NPAR = 2;` (line 34) — the number of fit parameters. -/
def NPAR : ℕ := 2

/-- One parsed input record `p v g ge` (PMT number, voltage, gain, gain error),
as read by `input_file >> p >> v >> g >> ge` (lines 65 and 68). -/
structure Measurement where
  p : ℚ
  v : ℚ
  g : ℚ
  ge : ℚ
deriving DecidableEq

/-- Token stream of the input file: `some m` is a run of four tokens that
parses as a record, `none` a position where extraction of the four numeric
fields fails.  Once `operator>>` fails, the stream's failbit is set and
`while (input_file >> p >> v >> g >> ge)` (line 68) exits; every later read
also fails, so the loop yields exactly the records before the first failure. -/
def readRecords (toks : List (Option Measurement)) : List Measurement :=
  (toks.takeWhile Option.isSome).filterMap id

/-- Selection test `p == pmt_num + 1` (line 69); `pmt` is the 0-based loop
index, `pmt_num + 1` is computed in integer arithmetic and then converted for
the comparison against the double `p`. -/
def matchesB (pmt : ℕ) (m : Measurement) : Bool :=
  decide (m.p = ((pmt + 1 : ℕ) : ℚ))

/-- Records of the input belonging to channel `pmt` (0-based), in input order. -/
def selected (ms : List Measurement) (pmt : ℕ) : List Measurement :=
  ms.filter (matchesB pmt)

/-- Number of records of the input matching channel `pmt`: the final value of
`num_data_points` for that channel (lines 66 and 73). -/
def countMatching (ms : List Measurement) (pmt : ℕ) : ℕ :=
  (selected ms pmt).length

/-- One stored row of the per-channel read buffers (lines 59-74):
`voltage_raw[i] = v`, `gain_raw[i] = g * 10^7`, `gain_error_raw[i] = ge * 10^7`. -/
structure RawPoint where
  voltage : ℚ
  gain : ℚ
  gainError : ℚ
deriving DecidableEq

/-- Fixed per-point voltage uncertainty: every entry of
`Double_t voltage_error_raw[6] = {2,2,2,2,2,2};` (line 60). -/
def voltageErrorRaw : ℚ := 2

/-- Store performed for a matching record (lines 70-72). -/
def storePoint (m : Measurement) : RawPoint :=
  ⟨m.v, m.g * 10 ^ 7, m.ge * 10 ^ 7⟩

/-- One step of the read loop (lines 68-75).  The raw buffers are fixed
six-element arrays (`Double_t voltage_raw[6]` and friends, lines 59-62); a
store at `num_data_points >= 6` writes past the end of the array, which is
modelled as `none`. -/
def loadStep (pmt : ℕ) (acc : Option (List RawPoint)) (m : Measurement) :
    Option (List RawPoint) :=
  match acc with
  | none => none
  | some buf =>
    if matchesB pmt m then
      if buf.length < 6 then some (buf ++ [storePoint m]) else none
    else some buf

/-- Read loop of lines 64-75 for channel `pmt`: fold the stored records into
the fixed-size buffers, failing on an out-of-bounds store. -/
def loadChannel (ms : List Measurement) (pmt : ℕ) : Option (List RawPoint) :=
  ms.foldl (loadStep pmt) (some [])

/-- One entry of the log-space arrays built at lines 89-94. -/
structure LogPoint where
  logVoltage : ℝ
  logGain : ℝ
  logGainError : ℝ
  logVoltageError : ℝ

/-- Transform of lines 90-93: `voltage[i] = log(voltage_raw[i])`,
`gain[i] = log(gain_raw[i])`, `gain_error[i] = gain_error_raw[i]/gain_raw[i]`,
`voltage_error[i] = voltage_error_raw[i]/voltage_raw[i]`. -/
noncomputable def toLogPoint (r : RawPoint) : LogPoint where
  logVoltage := Real.log (r.voltage : ℝ)
  logGain := Real.log (r.gain : ℝ)
  logGainError := (r.gainError : ℝ) / (r.gain : ℝ)
  logVoltageError := (voltageErrorRaw : ℝ) / (r.voltage : ℝ)

/-- Everything the code later reads back from the `TF1` after a call to
`data->Fit("fit","ME")`: the two fitted parameters (lines 149-151), their
errors (`GetParError`, lines 165-166), the chi-square (`GetChisquare`, line
167) and the fit probability (`GetProb`, line 169). -/
structure FitOutcome where
  par0 : ℝ
  par1 : ℝ
  err0 : ℝ
  err1 : ℝ
  chi2 : ℝ
  prob : ℝ

/-- Abstract deterministic solver standing for one `data->Fit("fit","ME")`
call: from the `TF1`'s current starting parameters and the graph data it
produces a fit outcome, leaving the fitted parameters in the `TF1`. -/
def Solver : Type :=
  ℝ × ℝ → List LogPoint → FitOutcome

/-- Fit block of lines 138-145: `fit->SetParameters(-30,7); data->Fit(...)`,
then nine further passes `fit->GetParameters(par); fit->SetParameters(par[0],
par[1]); data->Fit(...)`. -/
def fitPasses (fitFn : Solver) (d : List LogPoint) : FitOutcome :=
  let first := fitFn (-30, 7) d
  (List.range 9).foldl
    (fun prev _ =>
      let par := (prev.par0, prev.par1)
      fitFn (par.1, par.2) d)
    first

/-- Sequence of regression passes described by the spec: pass 0 starts from
the fixed guess `(-30, 7)`; pass `n+1` starts from the parameters fitted by
pass `n`. -/
def reseedChain (fitFn : Solver) (d : List LogPoint) : ℕ → FitOutcome
  | 0 => fitFn (-30, 7) d
  | n + 1 => fitFn ((reseedChain fitFn d n).par0, (reseedChain fitFn d n).par1) d

/-- Degrees of freedom returned by `fit->GetNDF()` (line 168): the number of
fitted points minus the number of free parameters (`NPAR = 2`).  This models
the documented behaviour of the external `TF1::GetNDF`. -/
def getNDF (n : ℕ) : ℤ :=
  (n : ℤ) - NPAR

/-- One comma-separated field of the output text file: the sentinel token
`"--"` (lines 157-161), a floating value, or the integer `GetNDF` value. -/
inductive Cell where
  | dash : Cell
  | num : ℝ → Cell
  | int : ℤ → Cell

/-- One line of the comma-separated output text file. -/
abbrev Line := List Cell

/-- One placeholder line (lines 155-163): the sentinel `"--"` written in each
of the 7 comma-separated fields. -/
def placeholderLine : Line :=
  [Cell.dash, Cell.dash, Cell.dash, Cell.dash, Cell.dash, Cell.dash, Cell.dash]

/-- Data line of lines 165-170: constant, its error, exponent, its error,
chi-square, degrees of freedom, fit probability, in that order. -/
def dataLine (r : FitOutcome) (n : ℕ) : Line :=
  [Cell.num r.par0, Cell.num r.err0, Cell.num r.par1, Cell.num r.err1,
   Cell.num r.chi2, Cell.int (getNDF n), Cell.num r.prob]

/-- Result of the body of the per-channel loop (lines 53-201) for one channel:
an out-of-bounds buffer store during reading, the skip branch of lines
101-107, or a completed fit with its point count. -/
inductive ChannelOutcome where
  | overflow : ChannelOutcome
  | skip : ChannelOutcome
  | fitted : FitOutcome → ℕ → ChannelOutcome

/-- Per-channel processing: load the records (lines 64-75), test
`num_data_points != 3 && num_data_points != 6` (line 101, `continue` on
failure), otherwise run the fit block on the log-transformed data. -/
noncomputable def processChannel (fitFn : Solver) (ms : List Measurement)
    (pmt : ℕ) : ChannelOutcome :=
  match loadChannel ms pmt with
  | none => ChannelOutcome.overflow
  | some buf =>
    if buf.length = 3 ∨ buf.length = 6 then
      ChannelOutcome.fitted (fitPasses fitFn (buf.map toLogPoint)) buf.length
    else ChannelOutcome.skip

/-- Console diagnostic printed on the skip branch (lines 102-105). -/
def skipMessage (pmt : ℕ) : String :=
  "Improper number of data points for PMT " ++ toString (pmt + 1) ++ ". SKIPPING"

/-- Console message printed before fitting (line 139). -/
def fitMessage (pmt : ℕ) : String :=
  "Fitting " ++ toString (pmt + 1)

/-- Console output produced for one channel. -/
noncomputable def channelConsole (fitFn : Solver) (ms : List Measurement)
    (pmt : ℕ) : List String :=
  match processChannel fitFn ms pmt with
  | ChannelOutcome.overflow => []
  | ChannelOutcome.skip => [skipMessage pmt]
  | ChannelOutcome.fitted _ _ => [fitMessage pmt]

/-- Lines written to the output text file for one channel: nothing on the
skip branch (the `continue` at line 106 precedes every `fout` write), and the
two placeholder lines followed by the data line (lines 155-170) after a fit. -/
noncomputable def channelBlock (fitFn : Solver) (ms : List Measurement)
    (pmt : ℕ) : Option (List Line) :=
  match processChannel fitFn ms pmt with
  | ChannelOutcome.overflow => none
  | ChannelOutcome.skip => some []
  | ChannelOutcome.fitted r n => some [placeholderLine, placeholderLine, dataLine r n]

/-- Blocks produced by running the per-channel loop over the given 0-based
channel indices in order, each paired with its 1-based channel number. -/
noncomputable def blocksFrom (fitFn : Solver) (ms : List Measurement) :
    List ℕ → Option (List (ℕ × List Line))
  | [] => some []
  | pmt :: rest =>
    match channelBlock fitFn ms pmt, blocksFrom fitFn ms rest with
    | some b, some bs => some ((pmt + 1, b) :: bs)
    | _, _ => none

/-- The outer loop `for(int pmt_num = 0; pmt_num < NPMT; pmt_num++)` (line
53): one block per channel, in increasing channel order. -/
noncomputable def tableBlocks (fitFn : Solver) (ms : List Measurement) :
    Option (List (ℕ × List Line)) :=
  blocksFrom fitFn ms (List.range NPMT)

/-- The fit-table text artifact: the concatenation of the per-channel blocks
in loop order. -/
noncomputable def fitTable (fitFn : Solver) (ms : List Measurement) :
    Option (List Line) :=
  (tableBlocks fitFn ms).map (fun bs => (bs.map Prod.snd).flatten)

/-- The fitted `TF1 "pol1"` model (line 110): a straight line in log space. -/
def lineModel (c0 c1 x : ℝ) : ℝ :=
  c0 + c1 * x

/-- Derived amplitude `TMath::Exp(constant)` (line 152). -/
noncomputable def amplitude (constant : ℝ) : ℝ :=
  Real.exp constant

/-- Modelled from the spec: the `power` function installed in the linear-scale
`TF1` at line 192 is not defined anywhere under `src/`; the spec gives the
power law `gain = A * V ^ k`, with parameter 0 the amplitude and parameter 1
the exponent (lines 193-194). -/
noncomputable def power (A k V : ℝ) : ℝ :=
  A * V ^ k

/-- Concrete solver used to instantiate the abstract fit in closed
statements: it returns the all-zero outcome for every input. -/
def trivialFit : Solver :=
  fun _ _ => ⟨0, 0, 0, 0, 0, 0⟩

/-! ### Characterization of the read loop -/

lemma foldl_loadStep_none (pmt : ℕ) :
    ∀ ms : List Measurement, ms.foldl (loadStep pmt) none = none := by
  intro ms
  induction ms with
  | nil => rfl
  | cons m t ih =>
    rw [List.foldl_cons]
    exact ih

lemma loadChannel_go (pmt : ℕ) :
    ∀ (ms : List Measurement) (buf : List RawPoint), buf.length ≤ 6 →
      ms.foldl (loadStep pmt) (some buf) =
        if buf.length + countMatching ms pmt ≤ 6
        then some (buf ++ (selected ms pmt).map storePoint)
        else none := by
  intro ms
  induction ms with
  | nil =>
    intro buf hbuf
    have hc : countMatching ([] : List Measurement) pmt = 0 := rfl
    rw [List.foldl_nil, hc, if_pos (by omega)]
    simp [selected]
  | cons m t ih =>
    intro buf hbuf
    rw [List.foldl_cons]
    by_cases hm : matchesB pmt m
    · have hsel : selected (m :: t) pmt = m :: selected t pmt := by
        simp [selected, List.filter_cons, hm]
      have hcnt : countMatching (m :: t) pmt = countMatching t pmt + 1 := by
        simp [countMatching, hsel]
      by_cases hlen : buf.length < 6
      · have hstep : loadStep pmt (some buf) m = some (buf ++ [storePoint m]) := by
          simp [loadStep, hm, hlen]
        have hlen2 : (buf ++ [storePoint m]).length ≤ 6 := by
          rw [List.length_append, List.length_cons, List.length_nil]
          omega
        rw [hstep, ih (buf ++ [storePoint m]) hlen2]
        refine if_congr ?_ ?_ rfl
        · rw [hcnt, List.length_append, List.length_cons, List.length_nil]
          omega
        · rw [hsel, List.map_cons, List.append_assoc, List.singleton_append]
      · have hstep : loadStep pmt (some buf) m = none := by
          simp [loadStep, hm, hlen]
        rw [hstep, foldl_loadStep_none, if_neg]
        omega
    · have hsel : selected (m :: t) pmt = selected t pmt := by
        simp [selected, List.filter_cons, hm]
      have hcnt : countMatching (m :: t) pmt = countMatching t pmt := by
        simp [countMatching, hsel]
      have hstep : loadStep pmt (some buf) m = some buf := by
        simp [loadStep, hm]
      rw [hstep, ih buf hbuf, hcnt, hsel]

lemma loadChannel_eq (ms : List Measurement) (pmt : ℕ) :
    loadChannel ms pmt =
      if countMatching ms pmt ≤ 6
      then some ((selected ms pmt).map storePoint)
      else none := by
  have h := loadChannel_go pmt ms [] (by simp)
  simpa [loadChannel] using h

lemma loadChannel_isSome_iff (ms : List Measurement) (pmt : ℕ) :
    (loadChannel ms pmt).isSome ↔ countMatching ms pmt ≤ 6 := by
  rw [loadChannel_eq]
  by_cases h : countMatching ms pmt ≤ 6
  · simp [h]
  · simp [h]

/-! ### Characterization of per-channel processing and of the output table -/

lemma processChannel_eq_of_le (fitFn : Solver) (ms : List Measurement) (pmt : ℕ)
    (h : countMatching ms pmt ≤ 6) :
    processChannel fitFn ms pmt =
      if countMatching ms pmt = 3 ∨ countMatching ms pmt = 6 then
        ChannelOutcome.fitted
          (fitPasses fitFn (((selected ms pmt).map storePoint).map toLogPoint))
          (countMatching ms pmt)
      else ChannelOutcome.skip := by
  have hlen : ((selected ms pmt).map storePoint).length = countMatching ms pmt := by
    rw [List.length_map]
    rfl
  rw [processChannel, loadChannel_eq, if_pos h]
  dsimp only
  rw [hlen]

lemma processChannel_eq_overflow (fitFn : Solver) (ms : List Measurement) (pmt : ℕ)
    (h : ¬countMatching ms pmt ≤ 6) :
    processChannel fitFn ms pmt = ChannelOutcome.overflow := by
  rw [processChannel, loadChannel_eq, if_neg h]

/-- Value of the per-channel output block, as a function of the matching
record count: three lines after a fit, no lines after a skip. -/
noncomputable def blockVal (fitFn : Solver) (ms : List Measurement) (pmt : ℕ) :
    List Line :=
  if countMatching ms pmt = 3 ∨ countMatching ms pmt = 6 then
    [placeholderLine, placeholderLine,
     dataLine (fitPasses fitFn (((selected ms pmt).map storePoint).map toLogPoint))
       (countMatching ms pmt)]
  else []

lemma channelBlock_eq_of_le (fitFn : Solver) (ms : List Measurement) (pmt : ℕ)
    (h : countMatching ms pmt ≤ 6) :
    channelBlock fitFn ms pmt = some (blockVal fitFn ms pmt) := by
  rw [channelBlock, processChannel_eq_of_le fitFn ms pmt h, blockVal]
  by_cases h36 : countMatching ms pmt = 3 ∨ countMatching ms pmt = 6
  · rw [if_pos h36, if_pos h36]
  · rw [if_neg h36, if_neg h36]

lemma channelBlock_eq_none (fitFn : Solver) (ms : List Measurement) (pmt : ℕ)
    (h : ¬countMatching ms pmt ≤ 6) :
    channelBlock fitFn ms pmt = none := by
  rw [channelBlock, processChannel_eq_overflow fitFn ms pmt h]

lemma blockVal_isEmpty (fitFn : Solver) (ms : List Measurement) (pmt : ℕ) :
    (blockVal fitFn ms pmt).isEmpty
      = !decide (countMatching ms pmt = 3 ∨ countMatching ms pmt = 6) := by
  rw [blockVal]
  by_cases h36 : countMatching ms pmt = 3 ∨ countMatching ms pmt = 6
  · simp [h36]
  · simp [h36]

lemma blocksFrom_eq (fitFn : Solver) (ms : List Measurement) :
    ∀ l : List ℕ, (∀ q ∈ l, countMatching ms q ≤ 6) →
      blocksFrom fitFn ms l = some (l.map fun q => (q + 1, blockVal fitFn ms q)) := by
  intro l
  induction l with
  | nil => intro _; rfl
  | cons q t ih =>
    intro h
    have hq : countMatching ms q ≤ 6 := h q (List.mem_cons_self q t)
    have ht : ∀ r ∈ t, countMatching ms r ≤ 6 :=
      fun r hr => h r (List.mem_cons_of_mem q hr)
    rw [blocksFrom, channelBlock_eq_of_le fitFn ms q hq, ih ht, List.map_cons]

lemma blocksFrom_isSome_count (fitFn : Solver) (ms : List Measurement) :
    ∀ (l : List ℕ) (bs : List (ℕ × List Line)),
      blocksFrom fitFn ms l = some bs → ∀ q ∈ l, countMatching ms q ≤ 6 := by
  intro l
  induction l with
  | nil =>
    intro bs _ q hq
    exact absurd hq (List.not_mem_nil q)
  | cons p t ih =>
    intro bs hbs q hq
    by_cases hp : countMatching ms p ≤ 6
    · rcases List.mem_cons.mp hq with hq1 | hq2
      · rwa [hq1]
      · rw [blocksFrom, channelBlock_eq_of_le fitFn ms p hp] at hbs
        rcases hrest : blocksFrom fitFn ms t with _ | bs2
        · rw [hrest] at hbs
          exact absurd hbs (by simp)
        · exact ih bs2 hrest q hq2
    · rw [blocksFrom, channelBlock_eq_none fitFn ms p hp] at hbs
      exact absurd hbs (by simp)

lemma countMatching_perm {msA msB : List Measurement}
    (h : List.Perm msB msA) (pmt : ℕ) :
    countMatching msB pmt = countMatching msA pmt :=
  (h.filter (matchesB pmt)).length_eq

/-! ### Concrete inputs used by the closed statements -/

/-- Record for channel 1 at the given voltage, with gain 2 and gain error 1. -/
def chanRec (v : ℚ) : Measurement :=
  ⟨1, v, 2, 1⟩

/-- Input with 3 records for channel 1 and none for any other channel. -/
def exInput3 : List Measurement :=
  [chanRec 1300, chanRec 1400, chanRec 1500]

/-- Input with 4 records for channel 1 and none for any other channel. -/
def exInput4 : List Measurement :=
  [chanRec 1300, chanRec 1400, chanRec 1500, chanRec 1600]

/-- Input with 7 records for channel 1 and none for any other channel. -/
def exInput7 : List Measurement :=
  [chanRec 1000, chanRec 1100, chanRec 1200, chanRec 1300,
   chanRec 1400, chanRec 1500, chanRec 1600]

/-! ### Claims -/

/-- C2: the fitter initializes the log-space linear model with the fixed
starting guess (c0, c1) = (-30, 7), runs the regression, and re-runs it
exactly nine additional times, each pass initializing its parameters from the
parameters fitted by the previous pass: the source's fit block equals the
tenth element of the re-seeded pass sequence, whose pass 0 starts from
(-30, 7) and whose pass n+1 starts from the parameters of pass n. -/
theorem claim_C2 (fitFn : Solver) (d : List LogPoint) :
    fitPasses fitFn d = reseedChain fitFn d 9 ∧
    reseedChain fitFn d 0 = fitFn (-30, 7) d ∧
    ∀ n : ℕ, reseedChain fitFn d (n + 1)
        = fitFn ((reseedChain fitFn d n).par0, (reseedChain fitFn d n).par1) d := by
  refine ⟨?_, rfl, fun n => rfl⟩
  rfl

/-- C10: matching records go into fixed six-element buffers before the count
validation, so loading succeeds exactly when the channel has at most 6
matching records in the input; with more than 6, a store leaves the array
bound during loading (the `none` result). -/
theorem claim_C10 (ms : List Measurement) (pmt : ℕ) :
    ((loadChannel ms pmt).isSome ↔ countMatching ms pmt ≤ 6) ∧
    (loadChannel ms pmt = none ↔ 6 < countMatching ms pmt) := by
  refine ⟨loadChannel_isSome_iff ms pmt, ?_⟩
  by_cases h : countMatching ms pmt ≤ 6
  · rw [loadChannel_eq, if_pos h]
    simp
    omega
  · rw [loadChannel_eq, if_neg h]
    simp
    omega

/-- C8: the derived amplitude equals exp(constant), and exponentiating the
fitted log-space line evaluated at ln(V) equals amplitude * V ^ exponent,
the original-space power curve at V. -/
theorem claim_C8 (c0 c1 V : ℝ) (hV : 0 < V) :
    amplitude c0 = Real.exp c0 ∧
    Real.exp (lineModel c0 c1 (Real.log V)) = power (amplitude c0) c1 V := by
  refine ⟨rfl, ?_⟩
  rw [lineModel, power, amplitude, Real.exp_add, Real.rpow_def_of_pos hV,
    mul_comm c1 (Real.log V)]

/-- Witness for C8 at the concrete voltage V = 1. -/
theorem claim_C8_witness :
    (0 : ℝ) < 1 ∧
    (amplitude 0 = Real.exp 0 ∧
      Real.exp (lineModel 0 0 (Real.log 1)) = power (amplitude 0) 0 1) :=
  ⟨one_pos, claim_C8 0 0 1 one_pos⟩

/-- C9: determinism — two runs of the pipeline on identical input, with the
same solver (hence the same fixed seed and pass count), produce identical
fit-table output. -/
theorem claim_C9 (fitFn : Solver) (msA msB : List Measurement) (h : msA = msB) :
    fitTable fitFn msA = fitTable fitFn msB ∧
    tableBlocks fitFn msA = tableBlocks fitFn msB := by
  rw [h]
  exact ⟨rfl, rfl⟩

/-- Witness for C9 at a concrete input. -/
theorem claim_C9_witness :
    exInput3 = exInput3 ∧
    (fitTable trivialFit exInput3 = fitTable trivialFit exInput3 ∧
      tableBlocks trivialFit exInput3 = tableBlocks trivialFit exInput3) :=
  ⟨rfl, claim_C9 trivialFit exInput3 exInput3 rfl⟩

/-- C5 counterexample: a malformed record in the middle of the input drops
the parseable record that follows it, contradicting the claim that every
parseable record elsewhere in the input is still loaded. -/
theorem claim_C5_cex :
    readRecords [some (chanRec 1300), none, some (chanRec 1400)]
      = [chanRec 1300] ∧
    chanRec 1400 ∉ readRecords [some (chanRec 1300), none, some (chanRec 1400)] := by
  refine ⟨rfl, ?_⟩
  decide

/-- C5 (corrected): the read loop loads exactly the records before the first
position where extraction fails; the malformed record and everything after
it, parseable or not, are dropped, and the run is not aborted — the loader
still returns the prefix of parseable records. -/
theorem claim_C5_amended (good rest : List (Option Measurement))
    (h : ∀ t ∈ good, t.isSome) :
    readRecords (good ++ none :: rest) = good.filterMap id ∧
    readRecords good = good.filterMap id := by
  induction good with
  | nil => exact ⟨rfl, rfl⟩
  | cons a t ih =>
    obtain ⟨x, rfl⟩ := Option.isSome_iff_exists.mp (h a (List.mem_cons_self a t))
    have ht : ∀ y ∈ t, y.isSome := fun y hy => h y (List.mem_cons_of_mem _ hy)
    obtain ⟨ih1, ih2⟩ := ih ht
    constructor
    · rw [List.cons_append]
      simp only [readRecords, List.takeWhile_cons, Option.isSome_some, if_true,
        List.filterMap_cons, id] at ih1 ⊢
      rw [ih1]
    · simp only [readRecords, List.takeWhile_cons, Option.isSome_some, if_true,
        List.filterMap_cons, id] at ih2 ⊢
      rw [ih2]

/-- Witness for C5: one parseable record before the malformed position, one
after it. -/
theorem claim_C5_witness :
    (∀ t ∈ [some (chanRec 1300)], t.isSome) ∧
    (readRecords ([some (chanRec 1300)] ++ none :: [some (chanRec 1400)])
        = [some (chanRec 1300)].filterMap id ∧
      readRecords [some (chanRec 1300)] = [some (chanRec 1300)].filterMap id) :=
  ⟨by decide, claim_C5_amended [some (chanRec 1300)] [some (chanRec 1400)] (by decide)⟩

/-- C1 counterexample: a channel with 7 matching records has a count that is
neither 3 nor 6, yet the run does not produce the skip outcome for it — the
seventh store already leaves the six-element buffers, before the count check
is ever reached. -/
theorem claim_C1_cex :
    countMatching exInput7 0 = 7 ∧
    loadChannel exInput7 0 = none ∧
    processChannel trivialFit exInput7 0 ≠ ChannelOutcome.skip := by
  refine ⟨by decide, rfl, ?_⟩
  intro hcontra
  have hov : processChannel trivialFit exInput7 0 = ChannelOutcome.overflow :=
    processChannel_eq_overflow trivialFit exInput7 0 (by decide)
  rw [hov] at hcontra
  exact ChannelOutcome.noConfusion hcontra

/-- C1 (corrected, adding the buffer-bound precondition): for every channel
with at most 6 matching records whose count is neither 3 nor 6 (including
zero), the run produces the skip outcome for that channel: the diagnostic is
printed, no fit is attempted, no output lines are written for it, and the
per-channel loop still yields one slot per channel whenever every channel is
within the buffer bound — so such a channel never aborts the run. -/
theorem claim_C1_amended (fitFn : Solver) (ms : List Measurement) (pmt : ℕ)
    (hle : countMatching ms pmt ≤ 6)
    (h3 : countMatching ms pmt ≠ 3) (h6 : countMatching ms pmt ≠ 6) :
    processChannel fitFn ms pmt = ChannelOutcome.skip ∧
    channelConsole fitFn ms pmt = [skipMessage pmt] ∧
    channelBlock fitFn ms pmt = some [] ∧
    ∀ l : List ℕ, (∀ q ∈ l, countMatching ms q ≤ 6) →
      ∃ bs, blocksFrom fitFn ms l = some bs ∧ bs.length = l.length := by
  have h36 : ¬(countMatching ms pmt = 3 ∨ countMatching ms pmt = 6) := by
    intro hc
    rcases hc with hc | hc
    · exact h3 hc
    · exact h6 hc
  have hp : processChannel fitFn ms pmt = ChannelOutcome.skip := by
    rw [processChannel_eq_of_le fitFn ms pmt hle, if_neg h36]
  refine ⟨hp, ?_, ?_, ?_⟩
  · rw [channelConsole, hp]
  · rw [channelBlock, hp]
  · intro l hl
    exact ⟨_, blocksFrom_eq fitFn ms l hl, by rw [List.length_map]⟩

/-- Witness for C1 at a channel with 4 matching records. -/
theorem claim_C1_witness :
    countMatching exInput4 0 ≤ 6 ∧ countMatching exInput4 0 ≠ 3 ∧
    countMatching exInput4 0 ≠ 6 ∧
    (processChannel trivialFit exInput4 0 = ChannelOutcome.skip ∧
      channelConsole trivialFit exInput4 0 = [skipMessage 0] ∧
      channelBlock trivialFit exInput4 0 = some [] ∧
      ∀ l : List ℕ, (∀ q ∈ l, countMatching exInput4 q ≤ 6) →
        ∃ bs, blocksFrom trivialFit exInput4 l = some bs ∧ bs.length = l.length) :=
  ⟨by decide, by decide, by decide,
    claim_C1_amended trivialFit exInput4 0 (by decide) (by decide) (by decide)⟩

/-- C4 counterexample: channel 1 of this input is skipped (4 records), and
its contribution to the fit table is the empty list of lines, not the two
placeholder lines the claim requires. -/
theorem claim_C4_cex :
    processChannel trivialFit exInput4 0 = ChannelOutcome.skip ∧
    channelBlock trivialFit exInput4 0 = some [] ∧
    ([] : List Line) ≠ [placeholderLine, placeholderLine] := by
  refine ⟨?_, rfl, by simp⟩
  rfl

/-- C4 (corrected): for every skipped channel, no lines at all are emitted —
the placeholder lines are omitted together with the data line — so the
fit-table artifact contains a three-line slot only for non-skipped channels,
and the skipped channel contributes nothing to it. -/
theorem claim_C4_amended (fitFn : Solver) (ms : List Measurement) (pmt : ℕ)
    (hle : countMatching ms pmt ≤ 6)
    (hbad : ¬(countMatching ms pmt = 3 ∨ countMatching ms pmt = 6)) :
    channelBlock fitFn ms pmt = some [] ∧
    ∀ (r : FitOutcome) (n : ℕ),
      processChannel fitFn ms pmt ≠ ChannelOutcome.fitted r n := by
  have hp : processChannel fitFn ms pmt = ChannelOutcome.skip := by
    rw [processChannel_eq_of_le fitFn ms pmt hle, if_neg hbad]
  constructor
  · rw [channelBlock, hp]
  · intro r n hcontra
    rw [hp] at hcontra
    exact ChannelOutcome.noConfusion hcontra

/-- Witness for C4 at a channel with 4 matching records. -/
theorem claim_C4_witness :
    countMatching exInput4 0 ≤ 6 ∧
    ¬(countMatching exInput4 0 = 3 ∨ countMatching exInput4 0 = 6) ∧
    (channelBlock trivialFit exInput4 0 = some [] ∧
      ∀ (r : FitOutcome) (n : ℕ),
        processChannel trivialFit exInput4 0 ≠ ChannelOutcome.fitted r n) :=
  ⟨by decide, by decide,
    claim_C4_amended trivialFit exInput4 0 (by decide) (by decide)⟩

/-- C7: for every non-skipped channel the reporter emits exactly two
placeholder lines, each the sentinel in all 7 comma-separated fields,
followed by one data line with the fields constant, constant error, exponent,
exponent error, chi-square, degrees of freedom and fit probability in that
order, where the degrees of freedom equal N - 2 for N data points. -/
theorem claim_C7 (fitFn : Solver) (ms : List Measurement) (pmt : ℕ)
    (h : countMatching ms pmt = 3 ∨ countMatching ms pmt = 6) :
    ∃ r : FitOutcome,
      processChannel fitFn ms pmt
        = ChannelOutcome.fitted r (countMatching ms pmt) ∧
      channelBlock fitFn ms pmt =
        some [placeholderLine, placeholderLine, dataLine r (countMatching ms pmt)] ∧
      placeholderLine = List.replicate 7 Cell.dash ∧
      dataLine r (countMatching ms pmt) =
        [Cell.num r.par0, Cell.num r.err0, Cell.num r.par1, Cell.num r.err1,
         Cell.num r.chi2, Cell.int ((countMatching ms pmt : ℤ) - 2),
         Cell.num r.prob] := by
  have hle : countMatching ms pmt ≤ 6 := by
    rcases h with h | h <;> omega
  refine ⟨fitPasses fitFn (((selected ms pmt).map storePoint).map toLogPoint),
    ?_, ?_, rfl, rfl⟩
  · rw [processChannel_eq_of_le fitFn ms pmt hle, if_pos h]
  · rw [channelBlock_eq_of_le fitFn ms pmt hle, blockVal, if_pos h]

/-- Witness for C7 at a channel with exactly 3 matching records. -/
theorem claim_C7_witness :
    (countMatching exInput3 0 = 3 ∨ countMatching exInput3 0 = 6) ∧
    ∃ r : FitOutcome,
      processChannel trivialFit exInput3 0
        = ChannelOutcome.fitted r (countMatching exInput3 0) ∧
      channelBlock trivialFit exInput3 0 =
        some [placeholderLine, placeholderLine,
          dataLine r (countMatching exInput3 0)] ∧
      placeholderLine = List.replicate 7 Cell.dash ∧
      dataLine r (countMatching exInput3 0) =
        [Cell.num r.par0, Cell.num r.err0, Cell.num r.par1, Cell.num r.err1,
         Cell.num r.chi2, Cell.int ((countMatching exInput3 0 : ℤ) - 2),
         Cell.num r.prob] :=
  ⟨by decide, claim_C7 trivialFit exInput3 0 (by decide)⟩

lemma toLogPoint_storePoint (m : Measurement) :
    toLogPoint (storePoint m) =
      { logVoltage := Real.log (m.v : ℝ)
        logGain := Real.log ((m.g : ℝ) * 10 ^ 7)
        logGainError := ((m.ge : ℝ) * 10 ^ 7) / ((m.g : ℝ) * 10 ^ 7)
        logVoltageError := (2 : ℝ) / (m.v : ℝ) } := by
  simp only [toLogPoint, storePoint, voltageErrorRaw]
  congr 1 <;> push_cast <;> ring

/-- C3: for every retained measurement the pipeline computes the regression
inputs as log voltage = ln(voltage), log gain = ln(gain * 10^7),
log gain error = (gain error * 10^7) / (gain * 10^7) — the physical gain
error over the physical gain — and log voltage error = the fixed voltage
error 2 over the voltage. -/
theorem claim_C3 (ms : List Measurement) (pmt : ℕ) (buf : List RawPoint)
    (h : loadChannel ms pmt = some buf) :
    buf.map toLogPoint =
      (selected ms pmt).map (fun m =>
        { logVoltage := Real.log (m.v : ℝ)
          logGain := Real.log ((m.g : ℝ) * 10 ^ 7)
          logGainError := ((m.ge : ℝ) * 10 ^ 7) / ((m.g : ℝ) * 10 ^ 7)
          logVoltageError := (2 : ℝ) / (m.v : ℝ) }) := by
  have hle : countMatching ms pmt ≤ 6 := by
    refine (loadChannel_isSome_iff ms pmt).mp ?_
    rw [h]
    rfl
  rw [loadChannel_eq, if_pos hle] at h
  obtain rfl := (Option.some.inj h).symm
  rw [List.map_map]
  exact List.map_congr_left (fun m _ => toLogPoint_storePoint m)

/-- Witness for C3 at a channel with 3 retained records. -/
theorem claim_C3_witness :
    loadChannel exInput3 0
      = some [storePoint (chanRec 1300), storePoint (chanRec 1400),
              storePoint (chanRec 1500)] ∧
    [storePoint (chanRec 1300), storePoint (chanRec 1400),
     storePoint (chanRec 1500)].map toLogPoint =
      (selected exInput3 0).map (fun m =>
        { logVoltage := Real.log (m.v : ℝ)
          logGain := Real.log ((m.g : ℝ) * 10 ^ 7)
          logGainError := ((m.ge : ℝ) * 10 ^ 7) / ((m.g : ℝ) * 10 ^ 7)
          logVoltageError := (2 : ℝ) / (m.v : ℝ) }) :=
  ⟨rfl, claim_C3 exInput3 0 _ rfl⟩

lemma tableBlocks_shape (fitFn : Solver) (ms : List Measurement)
    (bs : List (ℕ × List Line)) (hbs : tableBlocks fitFn ms = some bs) :
    bs = (List.range NPMT).map fun q => (q + 1, blockVal fitFn ms q) := by
  have hle : ∀ q ∈ List.range NPMT, countMatching ms q ≤ 6 :=
    blocksFrom_isSome_count fitFn ms (List.range NPMT) bs hbs
  rw [tableBlocks, blocksFrom_eq fitFn ms (List.range NPMT) hle] at hbs
  exact (Option.some.inj hbs).symm

/-- C6: for every input and any cross-channel permutation of its rows, the
blocks of the fit table carry the channel ids 1 up to the fixed channel count
in strictly increasing order; the ids of the blocks that actually contain
lines are strictly increasing as well, and they are the same for the
permuted input as for the original one. -/
theorem claim_C6 (fitFn : Solver) (msA msB : List Measurement)
    (bs : List (ℕ × List Line)) (hperm : List.Perm msB msA)
    (hbs : tableBlocks fitFn msB = some bs) :
    bs.map Prod.fst = (List.range NPMT).map (fun q => q + 1) ∧
    ((bs.filter (fun pr => !pr.2.isEmpty)).map Prod.fst).Pairwise (· < ·) ∧
    ∃ cs, tableBlocks fitFn msA = some cs ∧
      (cs.filter (fun pr => !pr.2.isEmpty)).map Prod.fst =
        (bs.filter (fun pr => !pr.2.isEmpty)).map Prod.fst := by
  have hleB : ∀ q ∈ List.range NPMT, countMatching msB q ≤ 6 :=
    blocksFrom_isSome_count fitFn msB (List.range NPMT) bs hbs
  have hcount : ∀ q, countMatching msB q = countMatching msA q :=
    fun q => countMatching_perm hperm q
  have hleA : ∀ q ∈ List.range NPMT, countMatching msA q ≤ 6 :=
    fun q hq => hcount q ▸ hleB q hq
  obtain rfl := tableBlocks_shape fitFn msB bs hbs
  have hfilter : ∀ ms2 : List Measurement,
      (((List.range NPMT).map fun q => (q + 1, blockVal fitFn ms2 q)).filter
          (fun pr => !pr.2.isEmpty)).map Prod.fst
        = ((List.range NPMT).filter
            (fun q => decide (countMatching ms2 q = 3 ∨ countMatching ms2 q = 6))).map
            (fun q => q + 1) := by
    intro ms2
    rw [List.filter_map, List.map_map]
    have hpred : ((fun pr : ℕ × List Line => !pr.2.isEmpty) ∘
          fun q => (q + 1, blockVal fitFn ms2 q))
        = fun q => decide (countMatching ms2 q = 3 ∨ countMatching ms2 q = 6) := by
      funext q
      dsimp only [Function.comp]
      rw [blockVal_isEmpty, Bool.not_not]
    rw [hpred]
    rfl
  refine ⟨?_, ?_, ?_⟩
  · rw [List.map_map]
    rfl
  · rw [hfilter msB]
    refine List.pairwise_map.mpr ?_
    refine List.Pairwise.imp (fun h => Nat.add_lt_add_right h 1) ?_
    exact List.Pairwise.sublist (List.filter_sublist (List.range NPMT))
      (List.pairwise_lt_range NPMT)
  · refine ⟨(List.range NPMT).map fun q => (q + 1, blockVal fitFn msA q), ?_, ?_⟩
    · rw [tableBlocks]
      exact blocksFrom_eq fitFn msA (List.range NPMT) hleA
    · rw [hfilter msA, hfilter msB]
      have : ((List.range NPMT).filter
            (fun q => decide (countMatching msA q = 3 ∨ countMatching msA q = 6)))
          = ((List.range NPMT).filter
            (fun q => decide (countMatching msB q = 3 ∨ countMatching msB q = 6))) := by
        refine List.filter_congr ?_
        intro q _
        rw [hcount q]
      rw [this]

/-- Witness for C6: the identity permutation of an input with three records
for channel 1. -/
theorem claim_C6_witness :
    List.Perm exInput3 exInput3 ∧
    ∃ bs : List (ℕ × List Line), tableBlocks trivialFit exInput3 = some bs ∧
      (bs.map Prod.fst = (List.range NPMT).map (fun q => q + 1) ∧
        ((bs.filter (fun pr => !pr.2.isEmpty)).map Prod.fst).Pairwise (· < ·) ∧
        ∃ cs, tableBlocks trivialFit exInput3 = some cs ∧
          (cs.filter (fun pr => !pr.2.isEmpty)).map Prod.fst =
            (bs.filter (fun pr => !pr.2.isEmpty)).map Prod.fst) := by
  refine ⟨List.Perm.refl exInput3, ?_⟩
  exact ⟨_, rfl, claim_C6 trivialFit exInput3 exInput3 _
    (List.Perm.refl exInput3) rfl⟩

end GainVoltage
